import Mathlib

/-!
Verification of the `servconf` package (ghost/servconf/servconf.go).

Go strings are modelled as `List Char`.  The character classes of the
validation regexp `[a-z]([-a-z0-9]*[a-z0-9])?` only match ASCII bytes, so a
character-level model agrees with Go's byte-level regexp engine on every
input (a multi-byte UTF-8 character consists solely of bytes ≥ 0x80, which
none of the classes match, exactly as the whole character fails the classes
here).

`regexp.Find` is modelled by `regexFind`: the Go pattern is unanchored, so
`Find` scans for the leftmost position whose byte is in `[a-z]` and then
matches greedily: `[-a-z0-9]*` consumes the maximal run of identifier
characters and backtracks so that the optional group ends in `[a-z0-9]`
(i.e. trailing characters of the run failing `[a-z0-9]` are dropped).
`Find` returns nil (here `none`) when there is no match, and
`bytes.Equal` treats nil and the empty slice as equal, which
`bytesEqualFind` reproduces.
-/

namespace Servconf

/-- ASCII `a`–`z`, the class `[a-z]` of the Go regexp. -/
def isLowerB (c : Char) : Bool := 97 ≤ c.toNat && c.toNat ≤ 122

/-- ASCII `0`–`9`, the class `[0-9]`. -/
def isDigitB (c : Char) : Bool := 48 ≤ c.toNat && c.toNat ≤ 57

/-- ASCII `A`–`Z`. -/
def isUpperB (c : Char) : Bool := 65 ≤ c.toNat && c.toNat ≤ 90

/-- The class `[a-z0-9]`. -/
def isLowerDigitB (c : Char) : Bool := isLowerB c || isDigitB c

/-- The class `[-a-z0-9]` (45 is the hyphen). -/
def isIdentCharB (c : Char) : Bool := isLowerDigitB c || c.toNat == 45

/-- Greedy match of `([-a-z0-9]*[a-z0-9])?` against a run of identifier
characters: the backtracking drops trailing characters of the run that fail
`[a-z0-9]`; if none remains the optional group matches the empty string. -/
def matchGroup (run : List Char) : List Char :=
  (run.reverse.dropWhile (fun c => !isLowerDigitB c)).reverse

/-- Model of `regexp.Find` for the unanchored pattern
`[a-z]([-a-z0-9]*[a-z0-9])?`: leftmost match, `none` when no position
matches. -/
def regexFind : List Char → Option (List Char)
  | [] => none
  | c :: rest =>
    if isLowerB c then some (c :: matchGroup (rest.takeWhile isIdentCharB))
    else regexFind rest

/-- Model of `bytes.Equal(found, s)` where `found` is the result of `Find`:
a nil slice (`none`) equals the empty slice. -/
def bytesEqualFind (found : Option (List Char)) (s : List Char) : Bool :=
  match found with
  | none => s.isEmpty
  | some m => m == s

/-- The acceptance test shared by the three identifier setters:
`bytes.Equal(exp.Find([]byte(s)), []byte(s))`. -/
def identAccept (s : List Char) : Bool := bytesEqualFind (regexFind s) s

/-- The language of the anchored pattern `^[a-z]([-a-z0-9]*[a-z0-9])?$`:
first character in `[a-z]`, every further character in `[-a-z0-9]`, and the
last of those (when any) in `[a-z0-9]`. -/
def identLangB (s : List Char) : Bool :=
  match s with
  | [] => false
  | c :: rest =>
    isLowerB c && rest.all isIdentCharB &&
      (match rest.getLast? with
       | none => true
       | some d => isLowerDigitB d)

/-- ASCII model of `strings.ToLower`.  Unicode lowercasing agrees with this
on every string the setters ever store: a stored string passed the
acceptance test, hence consists of ASCII `[-a-z0-9]` characters, on which
both maps are the identity. -/
def toLowerChar (c : Char) : Char :=
  if 65 ≤ c.toNat ∧ c.toNat ≤ 90 then Char.ofNat (c.toNat + 32) else c

/-- `strings.ToLower` on a whole string. -/
def listToLower (s : List Char) : List Char := s.map toLowerChar

/-!
Model of `k8s.io/apimachinery/pkg/api/resource`.  A `Quantity` is an
arbitrary-precision decimal; it is modelled exactly as an unreduced
fraction whose denominator is a power of ten (binary suffixes such as `Gi`
contribute an integer factor to the numerator, the fractional digits and
the negative decimal suffixes `m`/`u`/`n` contribute the power of ten).
-/

/-- Exact value of a `resource.Quantity`: `num / den` with `den` a power of
ten. -/
structure Quantity where
  num : Int
  den : Nat
deriving DecidableEq, Repr

/-- The zero value of `resource.Quantity`. -/
def Quantity.zero : Quantity := ⟨0, 1⟩

/-- Decimal digits to a natural number. -/
def digitsVal (ds : List Char) : Nat :=
  ds.foldl (fun a c => a * 10 + (c.toNat - 48)) 0

/-- Multiplier of a quantity suffix, as a pair `(posMult, negPow10)` with
value `posMult / 10 ^ negPow10`; `none` for an unknown suffix.  Covers the
decimal-SI and binary-SI suffixes of `resource.ParseQuantity`. -/
def suffixScale : List Char → Option (Nat × Nat)
  | [] => some (1, 0)
  | ['n'] => some (1, 9)
  | ['u'] => some (1, 6)
  | ['m'] => some (1, 3)
  | ['k'] => some (1000, 0)
  | ['M'] => some (1000000, 0)
  | ['G'] => some (1000000000, 0)
  | ['T'] => some (1000000000000, 0)
  | ['P'] => some (1000000000000000, 0)
  | ['E'] => some (1000000000000000000, 0)
  | ['K', 'i'] => some (1024, 0)
  | ['M', 'i'] => some (1024 ^ 2, 0)
  | ['G', 'i'] => some (1024 ^ 3, 0)
  | ['T', 'i'] => some (1024 ^ 4, 0)
  | ['P', 'i'] => some (1024 ^ 5, 0)
  | ['E', 'i'] => some (1024 ^ 6, 0)
  | _ => none

/-- Model of `resource.ParseQuantity` on its decimal forms: an optional
sign, a nonempty digit run, an optional fraction (dot followed by a
nonempty digit run), and an optional SI/binary suffix.  Anything else —
in particular the empty string or a non-digit where digits are required —
fails, as `ParseQuantity` does.  (The exponent notation `e`/`E` of
`ParseQuantity` is not modelled; no code path under verification feeds it.) -/
def parseQuantity (s : List Char) : Option Quantity :=
  match s with
  | [] => none
  | _ =>
    let sgn : Int := match s with
      | '-' :: _ => -1
      | _ => 1
    let s1 : List Char := match s with
      | '-' :: t => t
      | '+' :: t => t
      | _ => s
    let ds := s1.takeWhile isDigitB
    let rest1 := s1.dropWhile isDigitB
    if ds.isEmpty then none else
    match rest1 with
    | '.' :: t =>
      let fs := t.takeWhile isDigitB
      let rest2 := t.dropWhile isDigitB
      if fs.isEmpty then none else
      match suffixScale rest2 with
      | none => none
      | some (pm, np) =>
        some ⟨sgn * (Int.ofNat (digitsVal (ds ++ fs) * pm)), 10 ^ (fs.length + np)⟩
    | _ =>
      match suffixScale rest1 with
      | none => none
      | some (pm, np) =>
        some ⟨sgn * (Int.ofNat (digitsVal ds * pm)), 10 ^ np⟩

/-- Model of `resource.Quantity.OpenAPISchemaFormat`: the method is OpenAPI
schema metadata, not a rendering of the value — it returns the empty string
for every quantity. -/
def openAPISchemaFormat (_q : Quantity) : List Char := []

/-- One gibibyte, `2 ^ 30`. -/
def gibi : Nat := 1024 ^ 3

/-- Model of `apiv1.Protocol`, a string type. -/
def Protocol := List Char
deriving instance DecidableEq, Repr for Protocol

/-- The `ServerConfig` struct.  Field defaults are the Go zero values.
`clientset` (`*kubernetes.Clientset` in Go) is modelled as an allocation
handle: distinct allocations of a clientset receive distinct handles.
`internalPort`/`externalPort` are `int32` values; the code only stores and
projects them (no arithmetic), so `Int` models them exactly. -/
structure ServerConfig where
  username : List Char := []
  serverName : List Char := []
  serverType : List Char := []
  cpu : Quantity := Quantity.zero
  ram : Quantity := Quantity.zero
  disk : Quantity := Quantity.zero
  ip : List Char := []
  internalPort : Int := 0
  externalPort : Int := 0
  protocol : Protocol := ([] : List Char)
  clientset : Nat := 0
deriving DecidableEq, Repr

/-- The public `WebConfig` struct. -/
structure WebConfig where
  Username : List Char
  ServerName : List Char
  ServerType : List Char
  CPU : List Char
  RAM : List Char
  Disk : List Char
  IP : List Char
  InternalPort : Int
  ExternalPort : Int
deriving DecidableEq, Repr

/-- Error message of `setUsername`. -/
def usernameErrMsg : List Char :=
  "username must contain only alphanumeric, lowercase characters".data

/-- Error message of `setServerName`. -/
def servernameErrMsg : List Char :=
  "servername must contain only alphanumeric, lowercase characters".data

/-- Error message of `SetType`. -/
def servertypeErrMsg : List Char :=
  "servertype must contain only alphanumeric, lowercase characters".data

def GetUsername (cfg : ServerConfig) : List Char := cfg.username

/-- `setUsername`: Go returns an `error` and mutates the receiver; here the
updated receiver is paired with the optional error. -/
def setUsername (cfg : ServerConfig) (username : List Char) :
    ServerConfig × Option (List Char) :=
  if !(identAccept username) then (cfg, some usernameErrMsg)
  else ({ cfg with username := listToLower username }, none)

def GetServerName (cfg : ServerConfig) : List Char := cfg.serverName

def setServerName (cfg : ServerConfig) (serverName : List Char) :
    ServerConfig × Option (List Char) :=
  if !(identAccept serverName) then (cfg, some servernameErrMsg)
  else ({ cfg with serverName := listToLower serverName }, none)

def GetServerType (cfg : ServerConfig) : List Char := cfg.serverType

def SetType (cfg : ServerConfig) (serverType : List Char) :
    ServerConfig × Option (List Char) :=
  if !(identAccept serverType) then (cfg, some servertypeErrMsg)
  else ({ cfg with serverType := listToLower serverType }, none)

def GetInternalPort (cfg : ServerConfig) : Int := cfg.internalPort

def SetInternalPort (cfg : ServerConfig) (port : Int) : ServerConfig :=
  { cfg with internalPort := port }

def GetExternalPort (cfg : ServerConfig) : Int := cfg.externalPort

def SetExternalPort (cfg : ServerConfig) (port : Int) : ServerConfig :=
  { cfg with externalPort := port }

def GetIP (cfg : ServerConfig) : List Char := cfg.ip

def SetIP (cfg : ServerConfig) (ip : List Char) : ServerConfig :=
  { cfg with ip := ip }

def GetProtocol (cfg : ServerConfig) : Protocol := cfg.protocol

def SetProtocol (cfg : ServerConfig) (protocol : Protocol) : ServerConfig :=
  { cfg with protocol := protocol }

def GetCPU (cfg : ServerConfig) : Quantity := cfg.cpu

/-- `SetCPU`: parse failure is silently swallowed (`if err == nil`). -/
def SetCPU (cfg : ServerConfig) (cpu : List Char) : ServerConfig :=
  match parseQuantity cpu with
  | some n => { cfg with cpu := n }
  | none => cfg

def GetRAM (cfg : ServerConfig) : Quantity := cfg.ram

/-- The suffix `"Gi"` appended by `SetRAM` and `SetDisk`. -/
def giSuffix : List Char := ['G', 'i']

/-- `SetRAM`: appends `"Gi"` before parsing; parse failure is silently
swallowed. -/
def SetRAM (cfg : ServerConfig) (ram : List Char) : ServerConfig :=
  match parseQuantity (ram ++ giSuffix) with
  | some n => { cfg with ram := n }
  | none => cfg

def GetDisk (cfg : ServerConfig) : Quantity := cfg.disk

def SetDisk (cfg : ServerConfig) (disk : List Char) : ServerConfig :=
  match parseQuantity (disk ++ giSuffix) with
  | some n => { cfg with disk := n }
  | none => cfg

def GetKubeConfig (cfg : ServerConfig) : Nat := cfg.clientset

/-- The `WebConfig` method (named `webConfig` here because the struct of
the same name already occupies the identifier).  Line for line the Go
projection; note `Disk` is computed from `GetRAM()`. -/
def webConfig (cfg : ServerConfig) : WebConfig :=
  { Username := GetUsername cfg
    ServerName := GetServerName cfg
    ServerType := GetServerType cfg
    CPU := openAPISchemaFormat (GetCPU cfg)
    RAM := openAPISchemaFormat (GetRAM cfg)
    Disk := openAPISchemaFormat (GetRAM cfg)
    IP := GetIP cfg
    InternalPort := GetInternalPort cfg
    ExternalPort := GetExternalPort cfg }

/-!
Model of `New` and the process-global state it touches.  The package-level
`var kubeconfig *string` and the handle allocator for
`kubernetes.NewForConfig` form `GlobalState`; credential loading and client
construction are external collaborators supplied as an `Environment`.  A Go
`panic` is modelled as `Except.error`.
-/

/-- The process-global state: the package-level `kubeconfig` flag pointer
(`none` while still nil) and a counter of clientset allocations (each
successful `kubernetes.NewForConfig` returns a fresh handle). -/
structure GlobalState where
  kubeconfig : Option (List Char) := none
  nextHandle : Nat := 0
deriving DecidableEq, Repr

/-- External collaborators of `New`: the home directory and command-line
flag used to locate the kubeconfig, `clientcmd.BuildConfigFromFlags`, and
the success or failure of `kubernetes.NewForConfig`. -/
structure Environment where
  homeDir : List Char
  flagArg : Option (List Char)
  buildConfig : List Char → Except (List Char) (List Char)
  newForConfig : List Char → Except (List Char) Unit

/-- The default kubeconfig path: `~/.kube/config` when a home directory is
available, otherwise the empty string. -/
def defaultKubePath (env : Environment) : List Char :=
  if env.homeDir.isEmpty then [] else env.homeDir ++ ("/.kube/config").data

/-- The `if kubeconfig == nil` block of `New`: registers the flag once and
parses the command line, after which the flag holds the override if one was
given and the default path otherwise. -/
def registerFlag (env : Environment) (g : GlobalState) : GlobalState :=
  if g.kubeconfig.isNone then
    let path : List Char :=
      match env.flagArg with
      | some v => v
      | none => defaultKubePath env
    { g with kubeconfig := some path }
  else g

/-- The kubeconfig path `New` hands to `BuildConfigFromFlags`. -/
def resolvedPath (env : Environment) (g : GlobalState) : List Char :=
  (registerFlag env g).kubeconfig.getD []

/-- Model of `New`.  `Except.error` models `panic` (process abort).  On
success a fresh clientset handle is allocated, and the username and
server-name setters run with their errors discarded, exactly as in Go. -/
def New (env : Environment) (g : GlobalState)
    (username serverName : List Char) :
    Except (List Char) (GlobalState × ServerConfig) :=
  let g1 := registerFlag env g
  match env.buildConfig (g1.kubeconfig.getD []) with
  | .error e => .error e
  | .ok config =>
    match env.newForConfig config with
    | .error e => .error e
    | .ok _ =>
      let cfg : ServerConfig := { clientset := g1.nextHandle }
      let g2 := { g1 with nextHandle := g1.nextHandle + 1 }
      let cfg1 := (setUsername cfg username).1
      let cfg2 := (setServerName cfg1 serverName).1
      .ok (g2, cfg2)

/-!
Setter calls as data, for invariants over arbitrary call sequences.
-/

/-- One setter call on a `ServerConfig` (errors of the identifier setters
are discarded, as a caller free to ignore them would). -/
inductive Op where
  | setU (s : List Char)
  | setSN (s : List Char)
  | setT (s : List Char)
  | setCPUOp (s : List Char)
  | setRAMOp (s : List Char)
  | setDiskOp (s : List Char)
  | setIPOp (s : List Char)
  | setIntPortOp (p : Int)
  | setExtPortOp (p : Int)
  | setProtocolOp (p : Protocol)

/-- Apply one setter call. -/
def applyOp (cfg : ServerConfig) : Op → ServerConfig
  | .setU s => (setUsername cfg s).1
  | .setSN s => (setServerName cfg s).1
  | .setT s => (SetType cfg s).1
  | .setCPUOp s => SetCPU cfg s
  | .setRAMOp s => SetRAM cfg s
  | .setDiskOp s => SetDisk cfg s
  | .setIPOp s => SetIP cfg s
  | .setIntPortOp p => SetInternalPort cfg p
  | .setExtPortOp p => SetExternalPort cfg p
  | .setProtocolOp p => SetProtocol cfg p

/-- Apply a sequence of setter calls. -/
def applyOps (cfg : ServerConfig) (ops : List Op) : ServerConfig :=
  ops.foldl applyOp cfg

/-- An identifier field is either still empty or a full match of the
anchored pattern. -/
def goodIdent (s : List Char) : Prop := s = [] ∨ identLangB s = true

instance goodIdentDecidable (s : List Char) : Decidable (goodIdent s) :=
  inferInstanceAs (Decidable (s = [] ∨ identLangB s = true))

/-- The invariant of the three stored identifier fields. -/
def identInvariant (cfg : ServerConfig) : Prop :=
  goodIdent cfg.username ∧ goodIdent cfg.serverName ∧ goodIdent cfg.serverType

instance identInvariantDecidable (cfg : ServerConfig) :
    Decidable (identInvariant cfg) :=
  inferInstanceAs (Decidable (_ ∧ _ ∧ _))

/-- No character of the string is an uppercase ASCII letter. -/
def noUpper (s : List Char) : Prop := ∀ c ∈ s, isUpperB c = false

instance noUpperDecidable (s : List Char) : Decidable (noUpper s) :=
  inferInstanceAs (Decidable (∀ c ∈ s, isUpperB c = false))

/-!
Concrete fixtures for counterexamples and witnesses.
-/

def userStr : List Char := "bob".data

def srvName1 : List Char := "server-one".data

def srvName2 : List Char := "server-two".data

def typeStr : List Char := "minecraft".data

def ipStr : List Char := "10.0.0.1".data

def badName : List Char := "Bob!".data

def sampleIdent : List Char := "abc-1".data

def nanStr : List Char := "not-a-number".data

def homeStr : List Char := "/home/user".data

def boomStr : List Char := "no kubeconfig".data

/-- A configuration whose username was already set. -/
def cfgBob : ServerConfig := { username := userStr }

/-- An environment in which credential loading and client construction
succeed. -/
def envOk : Environment :=
  { homeDir := homeStr, flagArg := none,
    buildConfig := fun p => .ok p, newForConfig := fun _ => .ok () }

/-- An environment in which `clientcmd.BuildConfigFromFlags` fails. -/
def envFail : Environment :=
  { homeDir := homeStr, flagArg := none,
    buildConfig := fun _ => .error boomStr, newForConfig := fun _ => .ok () }

/-- The global state at process start: nil flag pointer, no clientset
allocated yet. -/
def gInit : GlobalState := {}

def run1 : Except (List Char) (GlobalState × ServerConfig) :=
  New envOk gInit userStr srvName1

def st1 : GlobalState :=
  match run1 with
  | .ok p => p.1
  | .error _ => gInit

def cfgA : ServerConfig :=
  match run1 with
  | .ok p => p.2
  | .error _ => {}

def run2 : Except (List Char) (GlobalState × ServerConfig) :=
  New envOk st1 userStr srvName2

def st2 : GlobalState :=
  match run2 with
  | .ok p => p.1
  | .error _ => gInit

def cfgB : ServerConfig :=
  match run2 with
  | .ok p => p.2
  | .error _ => {}

def isOkB : Except (List Char) (GlobalState × ServerConfig) → Bool
  | .ok _ => true
  | .error _ => false

/-- A configuration with distinct RAM and disk quantities. -/
def cfgQ : ServerConfig := SetDisk (SetRAM {} ['4']) ['1', '0']

/-- A fully populated configuration: every field set to a valid value
through its setter. -/
def cfgFull : ServerConfig :=
  SetExternalPort
    (SetInternalPort
      (SetIP
        (SetDisk
          (SetRAM
            (SetCPU
              ((SetType
                  ((setServerName
                      ((setUsername { clientset := 0 } userStr).1)
                      srvName1).1)
                  typeStr).1)
              ['2'])
            ['4'])
          ['1', '0'])
        ipStr)
      25565)
    30000

/-- A sample call sequence mixing valid and invalid setter arguments. -/
def opList : List Op :=
  [Op.setU badName, Op.setT typeStr, Op.setRAMOp ['4'], Op.setSN []]

/-- The string contains an uppercase ASCII letter. -/
def hasUpper (s : List Char) : Bool := s.any isUpperB

/-- The string contains an underscore (ASCII 95). -/
def hasUnderscore (s : List Char) : Bool := s.any (fun c => c.toNat == 95)

/-- The string starts with an ASCII digit or a hyphen (ASCII 45). -/
def leadingDigitOrHyphen (s : List Char) : Bool :=
  match s with
  | [] => false
  | c :: _ => isDigitB c || c.toNat == 45

/-- The quantity two (no unit). -/
def twoQ : Quantity := ⟨2, 1⟩

/-- The quantity four gibibytes. -/
def fourGiQ : Quantity := ⟨((4 * gibi : Nat) : Int), 1⟩

/-- The quantity ten gibibytes. -/
def tenGiQ : Quantity := ⟨((10 * gibi : Nat) : Int), 1⟩

/-!
Helper lemmas about the regexp model.
-/

theorem takeWhile_prefixOf (p : Char → Bool) (l : List Char) :
    l.takeWhile p <+: l :=
  List.takeWhile_prefix p

theorem reverse_prefixOf_of_suffix {l₁ l₂ : List Char} (h : l₁ <:+ l₂) :
    l₁.reverse <+: l₂.reverse := by
  obtain ⟨t, rfl⟩ := h
  exact ⟨t.reverse, by simp⟩

theorem matchGroup_prefixOf (r : List Char) : matchGroup r <+: r := by
  have h := List.dropWhile_suffix (l := r.reverse) (fun c => !isLowerDigitB c)
  have h2 := reverse_prefixOf_of_suffix h
  simpa [matchGroup] using h2

theorem regexFind_length_le :
    ∀ s m : List Char, regexFind s = some m → m.length ≤ s.length := by
  intro s
  induction s with
  | nil => intro m h; simp [regexFind] at h
  | cons c rest ih =>
    intro m h
    cases hc : isLowerB c with
    | true =>
      simp [regexFind, hc] at h
      have h1 : (matchGroup (rest.takeWhile isIdentCharB)).length ≤
          (rest.takeWhile isIdentCharB).length :=
        (matchGroup_prefixOf _).length_le
      have h2 : (rest.takeWhile isIdentCharB).length ≤ rest.length :=
        (takeWhile_prefixOf _ _).length_le
      rw [← h]
      simp only [List.length_cons]
      omega
    | false =>
      simp [regexFind, hc] at h
      exact (ih m h).trans (Nat.le_succ _)

theorem takeWhile_eq_self_of_all (p : Char → Bool) :
    ∀ l : List Char, l.all p = true → l.takeWhile p = l := by
  intro l
  induction l with
  | nil => intro _; rfl
  | cons a t ih =>
    intro h
    simp only [List.all_cons, Bool.and_eq_true] at h
    simp [List.takeWhile_cons, h.1, ih h.2]

theorem all_of_takeWhile_eq_self (p : Char → Bool) :
    ∀ l : List Char, l.takeWhile p = l → l.all p = true := by
  intro l
  induction l with
  | nil => intro _; rfl
  | cons a t ih =>
    intro h
    cases hp : p a with
    | false => simp [List.takeWhile_cons, hp] at h
    | true =>
      simp only [List.takeWhile_cons, hp, if_true] at h
      simp only [List.cons.injEq, true_and] at h
      simp [List.all_cons, hp, ih h]

theorem dropWhile_eq_self_cases (p : Char → Bool) :
    ∀ l : List Char, l.dropWhile p = l →
      l = [] ∨ ∃ d t, l = d :: t ∧ p d = false := by
  intro l h
  cases l with
  | nil => exact Or.inl rfl
  | cons d t =>
    cases hp : p d with
    | false => exact Or.inr ⟨d, t, rfl, hp⟩
    | true =>
      exfalso
      simp only [List.dropWhile_cons, hp, if_true] at h
      have hle := (List.dropWhile_suffix (l := t) p).length_le
      rw [h] at hle
      simp only [List.length_cons] at hle
      omega

theorem identLangB_of_regexFind_self :
    ∀ s : List Char, regexFind s = some s → identLangB s = true := by
  intro s h
  cases s with
  | nil => simp [regexFind] at h
  | cons c rest =>
    cases hc : isLowerB c with
    | false =>
      simp [regexFind, hc] at h
      have hle := regexFind_length_le rest _ h
      simp only [List.length_cons] at hle
      omega
    | true =>
      simp only [regexFind, hc, if_true, Option.some.injEq, List.cons.injEq,
        true_and] at h
      have hp1 := matchGroup_prefixOf (rest.takeWhile isIdentCharB)
      rw [h] at hp1
      have hp2 := takeWhile_prefixOf isIdentCharB rest
      have htweq : rest.takeWhile isIdentCharB = rest :=
        hp2.eq_of_length (Nat.le_antisymm hp2.length_le hp1.length_le)
      have hall : rest.all isIdentCharB = true :=
        all_of_takeWhile_eq_self _ rest htweq
      rw [htweq] at h
      have hd : rest.reverse.dropWhile (fun c => !isLowerDigitB c) =
          rest.reverse := by
        have h2 := congrArg List.reverse h
        simpa [matchGroup] using h2
      rcases dropWhile_eq_self_cases _ _ hd with hnil | ⟨d, t, hdt, hqd⟩
      · have : rest = [] := by
          have h2 := congrArg List.reverse hnil
          simpa using h2
        subst this
        simp [identLangB, hc]
      · have hld : isLowerDigitB d = true := by
          simpa using hqd
        have hlast : rest.getLast? = some d := by
          rw [← List.head?_reverse, hdt]
          rfl
        simp [identLangB, hc, hall, hlast, hld]

theorem regexFind_self_of_identLangB :
    ∀ s : List Char, identLangB s = true → regexFind s = some s := by
  intro s h
  cases s with
  | nil => simp [identLangB] at h
  | cons c rest =>
    simp only [identLangB, Bool.and_eq_true] at h
    obtain ⟨⟨h1, h2⟩, h3⟩ := h
    simp only [regexFind, h1, if_true, Option.some.injEq, List.cons.injEq,
      true_and]
    rw [takeWhile_eq_self_of_all _ rest h2]
    cases hrev : rest.reverse with
    | nil =>
      have : rest = [] := by
        have h4 := congrArg List.reverse hrev
        simpa using h4
      subst this
      rfl
    | cons d t =>
      have hlast : rest.getLast? = some d := by
        rw [← List.head?_reverse, hrev]
        rfl
      rw [hlast] at h3
      have h4 : isLowerDigitB d = true := h3
      have hrr : t.reverse ++ [d] = rest := by
        have h5 := congrArg List.reverse hrev
        simp at h5
        exact h5.symm
      unfold matchGroup
      rw [hrev]
      simp [List.dropWhile_cons, h4]
      exact hrr

theorem identAccept_iff (s : List Char) :
    identAccept s = true ↔ (s = [] ∨ identLangB s = true) := by
  unfold identAccept bytesEqualFind
  cases hf : regexFind s with
  | none =>
    simp only [List.isEmpty_iff]
    constructor
    · exact Or.inl
    · rintro (rfl | hl)
      · rfl
      · rw [regexFind_self_of_identLangB s hl] at hf
        exact Option.noConfusion hf
  | some m =>
    simp only [beq_iff_eq]
    constructor
    · rintro rfl
      exact Or.inr (identLangB_of_regexFind_self _ hf)
    · rintro (rfl | hl)
      · simp [regexFind] at hf
      · rw [regexFind_self_of_identLangB s hl] at hf
        have := Option.some.inj hf
        exact this.symm

/-!
Character-class facts and `ToLower` lemmas.
-/

theorem lower_char_range (c : Char) (h : isLowerB c = true) :
    97 ≤ c.toNat ∧ c.toNat ≤ 122 := by
  simpa [isLowerB] using h

theorem upper_char_range (c : Char) (h : isUpperB c = true) :
    65 ≤ c.toNat ∧ c.toNat ≤ 90 := by
  simpa [isUpperB] using h

theorem digit_char_range (c : Char) (h : isDigitB c = true) :
    48 ≤ c.toNat ∧ c.toNat ≤ 57 := by
  simpa [isDigitB] using h

theorem ident_char_range (c : Char) (h : isIdentCharB c = true) :
    (97 ≤ c.toNat ∧ c.toNat ≤ 122) ∨ (48 ≤ c.toNat ∧ c.toNat ≤ 57) ∨
      c.toNat = 45 := by
  simpa [isIdentCharB, isLowerDigitB, isLowerB, isDigitB, or_assoc] using h

theorem lower_not_upper (c : Char) (h : isLowerB c = true) :
    isUpperB c = false := by
  cases hb : isUpperB c with
  | false => rfl
  | true =>
    have h1 := lower_char_range c h
    have h2 := upper_char_range c hb
    omega

theorem ident_not_upper (c : Char) (h : isIdentCharB c = true) :
    isUpperB c = false := by
  cases hb : isUpperB c with
  | false => rfl
  | true =>
    have h1 := ident_char_range c h
    have h2 := upper_char_range c hb
    omega

theorem lower_not_95 (c : Char) (h : isLowerB c = true) :
    (c.toNat == 95) = false := by
  cases hb : c.toNat == 95 with
  | false => rfl
  | true =>
    have h1 := lower_char_range c h
    simp only [beq_iff_eq] at hb
    omega

theorem ident_not_95 (c : Char) (h : isIdentCharB c = true) :
    (c.toNat == 95) = false := by
  cases hb : c.toNat == 95 with
  | false => rfl
  | true =>
    have h1 := ident_char_range c h
    simp only [beq_iff_eq] at hb
    rcases h1 with ⟨a, b⟩ | ⟨a, b⟩ | a <;> omega

theorem lower_not_digit (c : Char) (h : isLowerB c = true) :
    isDigitB c = false := by
  cases hb : isDigitB c with
  | false => rfl
  | true =>
    have h1 := lower_char_range c h
    have h2 := digit_char_range c hb
    omega

theorem lower_not_45 (c : Char) (h : isLowerB c = true) :
    (c.toNat == 45) = false := by
  cases hb : c.toNat == 45 with
  | false => rfl
  | true =>
    have h1 := lower_char_range c h
    simp only [beq_iff_eq] at hb
    omega

theorem identLang_no_bad (s : List Char) (hl : identLangB s = true) :
    hasUpper s = false ∧ hasUnderscore s = false ∧
      leadingDigitOrHyphen s = false := by
  cases s with
  | nil => simp [identLangB] at hl
  | cons c rest =>
    simp only [identLangB, Bool.and_eq_true] at hl
    obtain ⟨⟨h1, h2⟩, _⟩ := hl
    refine ⟨?_, ?_, ?_⟩
    · rw [hasUpper, List.any_eq_false]
      intro x hx
      rcases List.mem_cons.mp hx with rfl | hxr
      · simp [lower_not_upper _ h1]
      · simp [ident_not_upper x (List.all_eq_true.mp h2 x hxr)]
    · rw [hasUnderscore, List.any_eq_false]
      intro x hx
      rcases List.mem_cons.mp hx with rfl | hxr
      · simp [lower_not_95 _ h1]
      · simp [ident_not_95 x (List.all_eq_true.mp h2 x hxr)]
    · show (isDigitB c || c.toNat == 45) = false
      rw [Bool.or_eq_false_iff]
      exact ⟨lower_not_digit c h1, lower_not_45 c h1⟩

theorem toLowerChar_of_identChar (c : Char) (h : isIdentCharB c = true) :
    toLowerChar c = c := by
  have h1 := ident_char_range c h
  unfold toLowerChar
  rw [if_neg]
  omega

theorem toLowerChar_of_lower (c : Char) (h : isLowerB c = true) :
    toLowerChar c = c := by
  have h1 := lower_char_range c h
  unfold toLowerChar
  rw [if_neg]
  omega

theorem map_toLower_of_all :
    ∀ l : List Char, l.all isIdentCharB = true → l.map toLowerChar = l := by
  intro l
  induction l with
  | nil => intro _; rfl
  | cons a t ih =>
    intro h
    simp only [List.all_cons, Bool.and_eq_true] at h
    simp [List.map_cons, toLowerChar_of_identChar a h.1, ih h.2]

theorem listToLower_of_identLang (s : List Char) (h : identLangB s = true) :
    listToLower s = s := by
  cases s with
  | nil => rfl
  | cons c rest =>
    simp only [identLangB, Bool.and_eq_true] at h
    obtain ⟨⟨h1, h2⟩, _⟩ := h
    simp only [listToLower, List.map_cons, List.cons.injEq]
    exact ⟨toLowerChar_of_lower c h1, map_toLower_of_all rest h2⟩

/-!
Structural lemmas about the setters and `New`.
-/

theorem setUsername_clientset (cfg : ServerConfig) (u : List Char) :
    (setUsername cfg u).1.clientset = cfg.clientset := by
  unfold setUsername
  split <;> rfl

theorem setServerName_clientset (cfg : ServerConfig) (sn : List Char) :
    (setServerName cfg sn).1.clientset = cfg.clientset := by
  unfold setServerName
  split <;> rfl

theorem registerFlag_isSome (env : Environment) (g : GlobalState) :
    ((registerFlag env g).kubeconfig).isSome = true := by
  unfold registerFlag
  cases hk : g.kubeconfig with
  | none => simp [hk]
  | some v => simp [hk]

theorem registerFlag_of_isSome (env : Environment) (g : GlobalState)
    (h : (g.kubeconfig).isSome = true) : registerFlag env g = g := by
  unfold registerFlag
  cases hk : g.kubeconfig with
  | none => rw [hk] at h; simp at h
  | some v => simp [hk]

theorem New_eq (env : Environment) (g : GlobalState) (u sn : List Char) :
    New env g u sn =
      match env.buildConfig (resolvedPath env g) with
      | .error e => .error e
      | .ok config =>
        match env.newForConfig config with
        | .error e => .error e
        | .ok _ =>
          .ok ({ registerFlag env g with
                   nextHandle := (registerFlag env g).nextHandle + 1 },
               (setServerName
                  (setUsername
                     { clientset := (registerFlag env g).nextHandle } u).1
                  sn).1) := by
  simp only [New, resolvedPath]

theorem New_ok_spec (env : Environment) (g : GlobalState) (u sn : List Char)
    (r : GlobalState × ServerConfig) (h : New env g u sn = .ok r) :
    r.1 = { registerFlag env g with
              nextHandle := (registerFlag env g).nextHandle + 1 } ∧
      r.2 = (setServerName
               (setUsername
                  { clientset := (registerFlag env g).nextHandle } u).1
               sn).1 := by
  simp only [New] at h
  cases hb : env.buildConfig ((registerFlag env g).kubeconfig.getD []) with
  | error e =>
    rw [hb] at h
    simp at h
  | ok c =>
    rw [hb] at h
    simp only [Except.ok.injEq] at h
    cases hn : env.newForConfig c with
    | error e =>
      rw [hn] at h
      simp at h
    | ok u' =>
      rw [hn] at h
      simp only [Except.ok.injEq] at h
      rw [← h]
      exact ⟨rfl, rfl⟩

/-!
Preservation of the identifier invariant.
-/

theorem goodIdent_stored (s : List Char) (h : identAccept s = true) :
    goodIdent (listToLower s) := by
  rcases (identAccept_iff s).mp h with rfl | hl
  · exact Or.inl rfl
  · rw [listToLower_of_identLang s hl]
    exact Or.inr hl

theorem setUsername_invariant (cfg : ServerConfig) (s : List Char)
    (h : identInvariant cfg) : identInvariant (setUsername cfg s).1 := by
  unfold setUsername
  cases ha : identAccept s with
  | false => simpa [ha] using h
  | true =>
    simp only [ha, Bool.not_true, Bool.false_eq_true, if_false]
    exact ⟨goodIdent_stored s ha, h.2.1, h.2.2⟩

theorem setServerName_invariant (cfg : ServerConfig) (s : List Char)
    (h : identInvariant cfg) : identInvariant (setServerName cfg s).1 := by
  unfold setServerName
  cases ha : identAccept s with
  | false => simpa [ha] using h
  | true =>
    simp only [ha, Bool.not_true, Bool.false_eq_true, if_false]
    exact ⟨h.1, goodIdent_stored s ha, h.2.2⟩

theorem SetType_invariant (cfg : ServerConfig) (s : List Char)
    (h : identInvariant cfg) : identInvariant (SetType cfg s).1 := by
  unfold SetType
  cases ha : identAccept s with
  | false => simpa [ha] using h
  | true =>
    simp only [ha, Bool.not_true, Bool.false_eq_true, if_false]
    exact ⟨h.1, h.2.1, goodIdent_stored s ha⟩

theorem applyOp_invariant (cfg : ServerConfig) (op : Op)
    (h : identInvariant cfg) : identInvariant (applyOp cfg op) := by
  cases op with
  | setU s => exact setUsername_invariant cfg s h
  | setSN s => exact setServerName_invariant cfg s h
  | setT s => exact SetType_invariant cfg s h
  | setCPUOp s =>
    show identInvariant (SetCPU cfg s)
    unfold SetCPU
    cases hp : parseQuantity s with
    | none => exact h
    | some n => exact h
  | setRAMOp s =>
    show identInvariant (SetRAM cfg s)
    unfold SetRAM
    cases hp : parseQuantity (s ++ giSuffix) with
    | none => exact h
    | some n => exact h
  | setDiskOp s =>
    show identInvariant (SetDisk cfg s)
    unfold SetDisk
    cases hp : parseQuantity (s ++ giSuffix) with
    | none => exact h
    | some n => exact h
  | setIPOp s => exact h
  | setIntPortOp p => exact h
  | setExtPortOp p => exact h
  | setProtocolOp p => exact h

theorem applyOps_invariant (cfg : ServerConfig) (ops : List Op)
    (h : identInvariant cfg) : identInvariant (applyOps cfg ops) := by
  induction ops generalizing cfg with
  | nil => exact h
  | cons op rest ih => exact ih (applyOp cfg op) (applyOp_invariant cfg op h)

theorem noUpper_of_goodIdent (s : List Char) (h : goodIdent s) : noUpper s := by
  rcases h with rfl | hl
  · intro c hc
    simp at hc
  · cases s with
    | nil =>
      intro c hc
      simp at hc
    | cons c rest =>
      simp only [identLangB, Bool.and_eq_true] at hl
      obtain ⟨⟨h1, h2⟩, _⟩ := hl
      intro x hx
      rcases List.mem_cons.mp hx with rfl | hx'
      · exact lower_not_upper x h1
      · exact ident_not_upper x (List.all_eq_true.mp h2 x hx')

/-!
The claims.
-/

/-- C1: for every string `s` in the language of the anchored pattern
`^[a-z]([-a-z0-9]*[a-z0-9])?$`, `setUsername(s)` returns no error and a
subsequent `GetUsername()` returns `s` lowercased, which equals `s` itself
since the pattern admits no uppercase characters. -/
theorem setUsername_accepts_pattern (cfg : ServerConfig) (s : List Char)
    (h : identLangB s = true) :
    (setUsername cfg s).2 = none ∧
      GetUsername (setUsername cfg s).1 = listToLower s ∧
      listToLower s = s := by
  have ha : identAccept s = true := (identAccept_iff s).mpr (Or.inr h)
  refine ⟨?_, ?_, listToLower_of_identLang s h⟩
  · simp [setUsername, ha]
  · simp [setUsername, ha, GetUsername]

/-- Witness for C1 at the concrete identifier `abc-1`. -/
theorem setUsername_accepts_pattern_witness :
    (setUsername cfgBob sampleIdent).2 = none ∧
      GetUsername (setUsername cfgBob sampleIdent).1 = listToLower sampleIdent ∧
      listToLower sampleIdent = sampleIdent :=
  setUsername_accepts_pattern cfgBob sampleIdent (by decide)

/-- C2 (amended): for every NONEMPTY string outside the pattern language,
each of the three identifier setters returns its error and leaves the
configuration (hence the stored field) unchanged.  The original claim,
quantified over every non-matching string, fails at the empty string. -/
theorem setters_reject_nonempty_invalid (cfg : ServerConfig) (s : List Char)
    (hne : s ≠ []) (hl : identLangB s = false) :
    setUsername cfg s = (cfg, some usernameErrMsg) ∧
      setServerName cfg s = (cfg, some servernameErrMsg) ∧
      SetType cfg s = (cfg, some servertypeErrMsg) := by
  have ha : identAccept s = false := by
    cases haa : identAccept s with
    | false => rfl
    | true =>
      rcases (identAccept_iff s).mp haa with rfl | h
      · exact absurd rfl hne
      · rw [h] at hl
        exact Bool.noConfusion hl
  exact ⟨by simp [setUsername, ha], by simp [setServerName, ha],
    by simp [SetType, ha]⟩

/-- Witness for the amended C2 at the concrete string `Bob!`. -/
theorem setters_reject_nonempty_invalid_witness :
    setUsername cfgBob badName = (cfgBob, some usernameErrMsg) ∧
      setServerName cfgBob badName = (cfgBob, some servernameErrMsg) ∧
      SetType cfgBob badName = (cfgBob, some servertypeErrMsg) :=
  setters_reject_nonempty_invalid cfgBob badName (by decide) (by decide)

/-- C2 counterexample: the empty string does not match the pattern, yet
`setUsername` returns no error and overwrites the previously stored
username `bob` with the empty string — the claim's "returns an error and
leaves the stored field unchanged" fails at `""`. -/
theorem empty_string_breaks_reject_claim :
    identLangB [] = false ∧ (setUsername cfgBob []).2 = none ∧
      (setUsername cfgBob []).1.username ≠ cfgBob.username := by decide

/-- C3: each of the three identifier setters accepts the empty string —
no error is returned and the empty string is stored — although `""` is not
in the pattern language, because the unanchored `Find` returns nil
(`regexFind [] = none`) and `bytes.Equal` treats nil and the empty slice as
equal. -/
theorem empty_string_accepted (cfg : ServerConfig) :
    (setUsername cfg []).2 = none ∧ (setUsername cfg []).1.username = [] ∧
      (setServerName cfg []).2 = none ∧
      (setServerName cfg []).1.serverName = [] ∧
      (SetType cfg []).2 = none ∧ (SetType cfg []).1.serverType = [] ∧
      identLangB [] = false ∧ regexFind [] = none :=
  ⟨rfl, rfl, rfl, rfl, rfl, rfl, rfl, rfl⟩

/-- Witness for C3 at a concrete configuration. -/
theorem empty_string_accepted_witness :
    (setUsername cfgBob []).2 = none ∧ (setUsername cfgBob []).1.username = [] ∧
      (setServerName cfgBob []).2 = none ∧
      (setServerName cfgBob []).1.serverName = [] ∧
      (SetType cfgBob []).2 = none ∧ (SetType cfgBob []).1.serverType = [] ∧
      identLangB [] = false ∧ regexFind [] = none :=
  empty_string_accepted cfgBob

/-- C4: every string containing an uppercase letter or an underscore, or
starting with a digit or a hyphen, is rejected by `setServerName`: the
error is returned and the configuration (hence the stored `serverName`) is
unchanged. -/
theorem setServerName_rejects_invalid (cfg : ServerConfig) (s : List Char)
    (h : (hasUpper s || hasUnderscore s || leadingDigitOrHyphen s) = true) :
    setServerName cfg s = (cfg, some servernameErrMsg) := by
  have hrej : identAccept s = false := by
    cases ha : identAccept s with
    | false => rfl
    | true =>
      exfalso
      rcases (identAccept_iff s).mp ha with rfl | hl
      · simp [hasUpper, hasUnderscore, leadingDigitOrHyphen] at h
      · obtain ⟨hu, hus, hld⟩ := identLang_no_bad s hl
        rw [hu, hus, hld] at h
        simp at h
  simp [setServerName, hrej]

/-- Witness for C4 at the concrete string `Bob!`. -/
theorem setServerName_rejects_invalid_witness :
    setServerName cfgBob badName = (cfgBob, some servernameErrMsg) :=
  setServerName_rejects_invalid cfgBob badName (by decide)

/-- C5: `SetRAM` appends `"Gi"` before parsing, so `SetRAM("4")` stores a
quantity equal to four gibibytes; and whenever the suffixed argument fails
to parse, the previous RAM value is left unchanged — `SetRAM` returns
nothing, so no error reaches the caller. -/
theorem SetRAM_spec :
    (∀ cfg : ServerConfig, GetRAM (SetRAM cfg ['4']) = fourGiQ) ∧
      (∀ (cfg : ServerConfig) (s : List Char),
        parseQuantity (s ++ giSuffix) = none → SetRAM cfg s = cfg) := by
  constructor
  · intro cfg
    rfl
  · intro cfg s h
    simp [SetRAM, h]

/-- Witness for C5: `not-a-numberGi` fails to parse and `SetRAM` leaves the
configuration untouched. -/
theorem SetRAM_spec_witness :
    parseQuantity (nanStr ++ giSuffix) = none ∧ SetRAM cfgBob nanStr = cfgBob :=
  ⟨by decide, SetRAM_spec.2 cfgBob nanStr (by decide)⟩

/-- C6 (amended): `WebConfig().Disk` is computed by applying the
display-format method to `GetRAM()`; but since
`Quantity.OpenAPISchemaFormat` returns the empty string for every quantity,
the field always equals `""` and therefore also coincides with the
display-format string of `GetDisk()` — the original claim's "not of
GetDisk()" clause fails. -/
theorem webConfig_disk_from_ram (cfg : ServerConfig) :
    (webConfig cfg).Disk = openAPISchemaFormat (GetRAM cfg) ∧
      (webConfig cfg).Disk = openAPISchemaFormat (GetDisk cfg) ∧
      (webConfig cfg).Disk = [] :=
  ⟨rfl, rfl, rfl⟩

/-- Witness for the amended C6 at a concrete configuration. -/
theorem webConfig_disk_from_ram_witness :
    (webConfig cfgQ).Disk = openAPISchemaFormat (GetRAM cfgQ) ∧
      (webConfig cfgQ).Disk = openAPISchemaFormat (GetDisk cfgQ) ∧
      (webConfig cfgQ).Disk = [] :=
  webConfig_disk_from_ram cfgQ

/-- C6 counterexample: at a configuration whose RAM (4Gi) and disk (10Gi)
quantities differ, `WebConfig().Disk` nonetheless equals the display-format
string of `GetDisk()`, refuting the claim's "not of GetDisk()" clause. -/
theorem webConfig_disk_counterexample :
    GetRAM cfgQ ≠ GetDisk cfgQ ∧
      (webConfig cfgQ).Disk = openAPISchemaFormat (GetDisk cfgQ) := by decide

/-- C7 (code bug, evaluated at the failing input): after setting every
field to a valid value, the identifier, IP and port fields of `WebConfig()`
do echo their stored values, but the three quantity fields are all
rendered as the empty string — `OpenAPISchemaFormat` is schema metadata,
not a value rendering — and `Disk` is computed from the RAM quantity even
though the stored disk (10Gi) differs from the stored RAM (4Gi).  The
claimed round-trip fails. -/
theorem webConfig_roundtrip_fails :
    GetCPU cfgFull = twoQ ∧ GetRAM cfgFull = fourGiQ ∧
      GetDisk cfgFull = tenGiQ ∧
      (webConfig cfgFull).CPU = [] ∧ (webConfig cfgFull).RAM = [] ∧
      (webConfig cfgFull).Disk = [] ∧
      (webConfig cfgFull).Username = userStr ∧
      (webConfig cfgFull).ServerName = srvName1 ∧
      (webConfig cfgFull).ServerType = typeStr ∧
      (webConfig cfgFull).IP = ipStr ∧
      (webConfig cfgFull).InternalPort = 25565 ∧
      (webConfig cfgFull).ExternalPort = 30000 ∧
      GetDisk cfgFull ≠ GetRAM cfgFull := by decide

/-- C8 (amended): only the kubeconfig flag is lazily initialized once per
process — a second successful construction leaves it unchanged — while the
cluster client itself is built anew on every call to `New`: two
consecutively constructed instances hold distinct client handles. -/
theorem New_builds_fresh_client (env : Environment) (g : GlobalState)
    (u1 n1 u2 n2 : List Char) (r1 r2 : GlobalState × ServerConfig)
    (h1 : New env g u1 n1 = .ok r1) (h2 : New env r1.1 u2 n2 = .ok r2) :
    r1.2.clientset ≠ r2.2.clientset ∧ r2.1.kubeconfig = r1.1.kubeconfig := by
  obtain ⟨hg1, hc1⟩ := New_ok_spec env g u1 n1 r1 h1
  obtain ⟨hg2, hc2⟩ := New_ok_spec env r1.1 u2 n2 r2 h2
  have hr1some : (r1.1.kubeconfig).isSome = true := by
    rw [hg1]
    simpa using registerFlag_isSome env g
  have hreg2 : registerFlag env r1.1 = r1.1 :=
    registerFlag_of_isSome env r1.1 hr1some
  constructor
  · rw [hc1, hc2, setServerName_clientset, setUsername_clientset,
      setServerName_clientset, setUsername_clientset, hreg2, hg1]
    simp
  · rw [hg2, hreg2, hg1]

/-- Witness for the amended C8: two concrete constructions in sequence. -/
theorem New_builds_fresh_client_witness :
    cfgA.clientset ≠ cfgB.clientset ∧ st2.kubeconfig = st1.kubeconfig :=
  New_builds_fresh_client envOk gInit userStr srvName1 userStr srvName2
    (st1, cfgA) (st2, cfgB) rfl rfl

/-- C8 counterexample: two instances constructed in the same process hold
DIFFERENT client handles — `kubernetes.NewForConfig` runs on every
construction, so the handle is not a process-wide singleton. -/
theorem client_handle_not_shared :
    isOkB run1 = true ∧ isOkB run2 = true ∧
      GetKubeConfig cfgA ≠ GetKubeConfig cfgB := by decide

/-- C9: whenever credential resolution (`BuildConfigFromFlags`) or client
construction (`NewForConfig`) fails, `New` panics — modelled as
`Except.error` — and in no such case does it return a usable
`ServerConfig`. -/
theorem New_panics_on_failure (env : Environment) (g : GlobalState)
    (u sn : List Char)
    (h : (∃ e, env.buildConfig (resolvedPath env g) = .error e) ∨
         (∃ c, env.buildConfig (resolvedPath env g) = .ok c ∧
               ∃ e, env.newForConfig c = .error e)) :
    (∃ e, New env g u sn = Except.error e) ∧
      ∀ r, New env g u sn ≠ Except.ok r := by
  have key : ∃ e, New env g u sn = Except.error e := by
    rcases h with ⟨e, he⟩ | ⟨c, hc, e, he⟩
    · refine ⟨e, ?_⟩
      rw [New_eq, he]
    · refine ⟨e, ?_⟩
      rw [New_eq, hc]
      simp only [he]
  obtain ⟨e, he⟩ := key
  refine ⟨⟨e, he⟩, ?_⟩
  intro r hr
  rw [he] at hr
  exact Except.noConfusion hr

/-- Witness for C9 in a concrete environment whose credential loading
fails. -/
theorem New_panics_on_failure_witness :
    (∃ e, New envFail gInit userStr srvName1 = Except.error e) ∧
      ∀ r, New envFail gInit userStr srvName1 ≠ Except.ok r :=
  New_panics_on_failure envFail gInit userStr srvName1 (Or.inl ⟨boomStr, rfl⟩)

/-- C10: every configuration produced by `New`, after any sequence of
setter calls, keeps each stored identifier field either empty or a full
match of `^[a-z]([-a-z0-9]*[a-z0-9])?$`; in particular no stored identifier
ever contains an uppercase character. -/
theorem identifier_invariant_all_ops (env : Environment) (g : GlobalState)
    (u sn : List Char) (r : GlobalState × ServerConfig) (ops : List Op)
    (h : New env g u sn = Except.ok r) :
    identInvariant (applyOps r.2 ops) ∧
      noUpper (applyOps r.2 ops).username ∧
      noUpper (applyOps r.2 ops).serverName ∧
      noUpper (applyOps r.2 ops).serverType := by
  obtain ⟨-, hc⟩ := New_ok_spec env g u sn r h
  have hbase : identInvariant
      { clientset := (registerFlag env g).nextHandle } :=
    ⟨Or.inl rfl, Or.inl rfl, Or.inl rfl⟩
  have hinit : identInvariant r.2 := by
    rw [hc]
    exact setServerName_invariant _ sn (setUsername_invariant _ u hbase)
  have hall := applyOps_invariant r.2 ops hinit
  exact ⟨hall, noUpper_of_goodIdent _ hall.1, noUpper_of_goodIdent _ hall.2.1,
    noUpper_of_goodIdent _ hall.2.2⟩

/-- Witness for C10: a concrete construction followed by a concrete
sequence of setter calls mixing valid and invalid arguments. -/
theorem identifier_invariant_all_ops_witness :
    identInvariant (applyOps cfgA opList) ∧
      noUpper (applyOps cfgA opList).username ∧
      noUpper (applyOps cfgA opList).serverName ∧
      noUpper (applyOps cfgA opList).serverType :=
  identifier_invariant_all_ops envOk gInit userStr srvName1 (st1, cfgA)
    opList rfl

end Servconf
